import Mathlib

/-
  Verification development for the slackode session streaming engine.

  Shallow embedding of:
  - the event-stream consumer loop of askQuestion (src/opencode.ts),
  - the session directory (src/sessions.ts),
  - the shared question pipeline handleQuestion (src/handlers/shared.ts),
  - the progress throttler createProgressUpdater (src/utils/progress.ts).
-/

namespace Slackode

/-- Part payloads of a message.part.updated event, mirroring the
discriminated union on part.type consumed by askQuestion.
text carries part.text (with undefined modelled as ""); tool carries
part.callID, part.tool and part.state.type; stepFinish carries
part.reason; other stands for every part variant the loop ignores. -/
inductive PartType where
  | text (s : String)
  | tool (callID : String) (toolName : String) (stateType : Option String)
  | stepFinish (reason : Option String)
  | compaction
  | other
deriving DecidableEq, Repr

/-- Events delivered on the SSE stream, mirroring the Event union that
askQuestion switches on. timerFired models one of the two timeout
callbacks (hard ceiling or post-answer grace window) setting done. -/
inductive Event where
  | partUpdated (sessionID : String) (part : PartType)
  | sessionIdle (sessionID : String)
  | timerFired
  | other
deriving DecidableEq, Repr

/-- The per-exchange mutable state of askQuestion: latestText, the
activeTools map (callID to tool name, insertion ordered like a JS Map),
the done / answerCaptured / compacted flags, and a log of the arguments
passed to the onProgress callback, in call order. -/
structure ExchangeState where
  latestText : String
  activeTools : List (String × String)
  done : Bool
  answerCaptured : Bool
  compacted : Bool
  progress : List String
deriving DecidableEq, Repr

/-- JS Map.set: update the value in place when the key is present
(keeping its insertion position), otherwise append. -/
def assocSet : List (String × String) → String → String → List (String × String)
  | [], k, v => [(k, v)]
  | (k1, v1) :: rest, k, v =>
    if k1 = k then (k, v) :: rest else (k1, v1) :: assocSet rest k v

/-- JS Map.delete: remove the entry with the given key, if any. -/
def assocErase : List (String × String) → String → List (String × String)
  | [], _ => []
  | (k1, v1) :: rest, k =>
    if k1 = k then rest else (k1, v1) :: assocErase rest k

/-- One iteration of the for-await loop of askQuestion over a single
event, for target session sessionId. Mirrors the source order: the
done check at the top of the loop body, the session filter, the
answerCaptured gate (after which only a compaction part is acted on),
then the text / tool / step-finish cases. -/
def stepEvent (sessionId : String) (st : ExchangeState) (e : Event) : ExchangeState :=
  if st.done then st
  else
    match e with
    | Event.timerFired => { st with done := true }
    | Event.partUpdated sid part =>
      if sid ≠ sessionId then st
      else if st.answerCaptured then
        match part with
        | PartType.compaction => { st with compacted := true, done := true }
        | PartType.text _ => st
        | PartType.tool _ _ _ => st
        | PartType.stepFinish _ => st
        | PartType.other => st
      else
        match part with
        | PartType.text s =>
          let st1 := { st with latestText := s }
          if s ≠ "" then { st1 with progress := st1.progress ++ [s] } else st1
        | PartType.tool callID toolName stateType =>
          if stateType = some "running" then
            let tools := assocSet st.activeTools callID toolName
            let toolNames := String.intercalate ", " (tools.map Prod.snd)
            let status :=
              if st.latestText ≠ "" then
                st.latestText ++ "\n\n_Using: " ++ toolNames ++ "..._"
              else
                "_Using: " ++ toolNames ++ "..._"
            { st with activeTools := tools, progress := st.progress ++ [status] }
          else if stateType = some "completed" || stateType = some "error" then
            { st with activeTools := assocErase st.activeTools callID }
          else st
        | PartType.stepFinish reason =>
          if reason = some "stop" then { st with answerCaptured := true } else st
        | PartType.compaction => st
        | PartType.other => st
    | Event.sessionIdle sid =>
      if sid = sessionId then { st with done := true } else st
    | Event.other => st

/-- Initial ExchangeState of askQuestion before the first event. -/
def initialExchange : ExchangeState :=
  { latestText := "", activeTools := [], done := false,
    answerCaptured := false, compacted := false, progress := [] }

/-- Run the consumption loop of askQuestion over a finite event trace. -/
def runExchange (sessionId : String) (events : List Event) : ExchangeState :=
  events.foldl (stepEvent sessionId) initialExchange

/-- Return value of askQuestion. -/
structure AskResult where
  text : String
  isQuestion : Bool
  compacted : Bool
deriving DecidableEq, Repr

/-- The fixed fallback answer returned when latestText is empty. -/
def fallbackText : String :=
  "I wasn\x27t able to generate a response. Please try again."

/-- JS String.prototype.trim: drop whitespace from both ends. -/
def jsTrim (s : String) : String :=
  String.mk (((s.data.dropWhile Char.isWhitespace).reverse.dropWhile Char.isWhitespace).reverse)

/-- JS String.prototype.endsWith. -/
def jsEndsWith (s suffix : String) : Bool :=
  List.isSuffixOf suffix.data s.data

/-- The return logic of askQuestion after the loop terminates: empty
latestText yields the fallback with isQuestion and compacted false;
otherwise isQuestion is whether the trimmed text ends with a question
mark and compacted is the captured flag. -/
def askResult (st : ExchangeState) : AskResult :=
  if st.latestText = "" then
    { text := fallbackText, isQuestion := false, compacted := false }
  else
    { text := st.latestText,
      isQuestion := jsEndsWith (jsTrim st.latestText) "?",
      compacted := st.compacted }

/-- askQuestion as a function of the target session and the event trace
its subscription delivers. -/
def askQuestion (sessionId : String) (events : List Event) : AskResult :=
  askResult (runExchange sessionId events)

/-- A row of the sessions table: session_id, compacted (INTEGER, 0/1)
and created_at. -/
structure SessionRow where
  session_id : String
  compacted : Nat
  created_at : Nat
deriving DecidableEq, Repr

/-- The sessions table, keyed by thread_key (primary key). -/
abbrev SessionStore := List (String × SessionRow)

/-- SELECT ... WHERE thread_key = k. -/
def findRow : SessionStore → String → Option SessionRow
  | [], _ => none
  | (k1, r1) :: rest, k => if k1 = k then some r1 else findRow rest k

/-- getSessionId: SELECT session_id FROM sessions WHERE thread_key = k. -/
def getSessionId (s : SessionStore) (k : String) : Option String :=
  (findRow s k).map (fun r => r.session_id)

/-- INSERT OR REPLACE keyed on the primary key. -/
def insertOrReplace : SessionStore → String → SessionRow → SessionStore
  | [], k, r => [(k, r)]
  | (k1, r1) :: rest, k, r =>
    if k1 = k then (k, r) :: rest else (k1, r1) :: insertOrReplace rest k r

/-- saveSession: INSERT OR REPLACE INTO sessions (thread_key, session_id);
the unspecified columns take their defaults (compacted 0, created_at now). -/
def saveSession (s : SessionStore) (k sid : String) (now : Nat) : SessionStore :=
  insertOrReplace s k { session_id := sid, compacted := 0, created_at := now }

/-- isSessionCompacted: the compacted column of the row equals 1; an
absent row yields false. -/
def isSessionCompacted (s : SessionStore) (k : String) : Bool :=
  match findRow s k with
  | some r => r.compacted == 1
  | none => false

/-- setSessionCompacted: UPDATE sessions SET compacted = c WHERE
thread_key = k; touches no row when the key is absent. -/
def setSessionCompacted : SessionStore → String → Bool → SessionStore
  | [], _, _ => []
  | (k1, r1) :: rest, k, c =>
    if k1 = k then
      (k1, { r1 with compacted := if c then 1 else 0 }) :: setSessionCompacted rest k c
    else
      (k1, r1) :: setSessionCompacted rest k c

/-- getOrCreateSession: return the stored id with isNew false when the
key is present; otherwise persist the id minted by the external
createSession capability (passed in as mintedId) and return it with
isNew true. Result is ((sessionId, isNew), store after the call). -/
def getOrCreateSession (s : SessionStore) (k mintedId : String) (now : Nat) :
    (String × Bool) × SessionStore :=
  match getSessionId s k with
  | some sid => ((sid, false), s)
  | none => ((mintedId, true), saveSession s k mintedId now)

/-- Observable outcome of the session-state slice of handleQuestion:
the session used, the isNew and needsFullContext flags, the exchange
result, the store as it stands when askQuestion is started (storeMid)
and the store after the compaction write-back (store). -/
structure HandleOutcome where
  sessionId : String
  isNew : Bool
  needsFullContext : Bool
  result : AskResult
  storeMid : SessionStore
  store : SessionStore
deriving DecidableEq, Repr

/-- The session-management slice of handleQuestion: get-or-create the
session, compute needsFullContext as isNew OR isSessionCompacted, clear
the stored flag before a full-context exchange on a continuing session,
run the exchange (its event trace passed in), and set the stored flag
when the result reports compacted. Slack posting is outside the model. -/
def handleQuestion (s : SessionStore) (threadTs mintedId : String) (now : Nat)
    (events : List Event) : HandleOutcome :=
  let g := getOrCreateSession s threadTs mintedId now
  let sessionId := g.1.1
  let isNew := g.1.2
  let s1 := g.2
  let needsFullContext := isNew || isSessionCompacted s1 threadTs
  let s2 := if !isNew && needsFullContext then setSessionCompacted s1 threadTs false else s1
  let result := askQuestion sessionId events
  let s3 := if result.compacted then setSessionCompacted s2 threadTs true else s2
  { sessionId := sessionId, isNew := isNew, needsFullContext := needsFullContext,
    result := result, storeMid := s2, store := s3 }

/-- State of createProgressUpdater: lastUpdate (ms timestamp of the
last emission, initially 0), pending (unsent text), timer (absolute
fire time of the scheduled setTimeout, if any) and the log of outward
notifications as (time, text) pairs. -/
structure ThrottleState where
  lastUpdate : Nat
  pending : Option String
  timer : Option Nat
  emissions : List (Nat × String)
deriving DecidableEq, Repr

/-- Initial throttler state. -/
def initThrottle : ThrottleState :=
  { lastUpdate := 0, pending := none, timer := none, emissions := [] }

/-- flush at clock time now: when a pending text exists, emit it,
record the time, and clear pending; the timer handle is untouched. -/
def flush (now : Nat) (st : ThrottleState) : ThrottleState :=
  match st.pending with
  | some text =>
    { st with emissions := st.emissions ++ [(now, text)],
              lastUpdate := now, pending := none }
  | none => st

/-- update(status) at clock time now: store status as pending; if at
least intervalMs elapsed since the last emission, flush immediately;
otherwise, if no timer is scheduled, schedule one for
intervalMs - elapsed from now. -/
def update (intervalMs now : Nat) (status : String) (st : ThrottleState) : ThrottleState :=
  let st1 := { st with pending := some status }
  let elapsed := now - st1.lastUpdate
  if intervalMs ≤ elapsed then flush now st1
  else
    match st1.timer with
    | some _ => st1
    | none => { st1 with timer := some (now + (intervalMs - elapsed)) }

/-- The setTimeout callback: clear the timer handle, then flush at the
scheduled fire time. No-op when no timer is scheduled. -/
def timerFire (st : ThrottleState) : ThrottleState :=
  match st.timer with
  | some ft => flush ft { st with timer := none }
  | none => st

/-- stop(): clearTimeout on any scheduled timer; pending is untouched
(and, with the timer gone, will never be flushed). -/
def stop (st : ThrottleState) : ThrottleState :=
  { st with timer := none }

/-- External calls into the throttler, each stamped with its clock time. -/
inductive ThrottleOp where
  | update (t : Nat) (text : String)
  | stop (t : Nat)
deriving DecidableEq, Repr

/-- Clock time of a throttler call. -/
def ThrottleOp.time : ThrottleOp → Nat
  | ThrottleOp.update t _ => t
  | ThrottleOp.stop t => t

/-- Event-loop semantics: before an external call at clock time tm, a
scheduled timer that is due at or before tm fires first. -/
def fireDue (tm : Nat) (st : ThrottleState) : ThrottleState :=
  match st.timer with
  | some ft => if ft ≤ tm then timerFire st else st
  | none => st

/-- One external call into the throttler: run any due timer first, then
the call itself. -/
def applyOp (intervalMs : Nat) (st : ThrottleState) (op : ThrottleOp) : ThrottleState :=
  match op with
  | ThrottleOp.update t text => update intervalMs t text (fireDue t st)
  | ThrottleOp.stop t => stop (fireDue t st)

/-- Run a trace of external calls from the initial throttler state. -/
def runOps (intervalMs : Nat) (ops : List ThrottleOp) : ThrottleState :=
  ops.foldl (applyOp intervalMs) initThrottle

/-- After the exchange ends, any still-scheduled timer runs to
completion. -/
def finalize (st : ThrottleState) : ThrottleState :=
  timerFire st

/-- Time of the last emission in the log (0 when none). -/
def lastEmitTime : List (Nat × String) → Nat
  | [] => 0
  | [e] => e.1
  | _ :: e :: rest => lastEmitTime (e :: rest)

/-- Consecutive emissions are at least intervalMs apart. -/
def spaced (intervalMs : Nat) : List (Nat × String) → Bool
  | [] => true
  | [_] => true
  | a :: b :: rest => decide (a.1 + intervalMs ≤ b.1) && spaced intervalMs (b :: rest)

/-- The call times of a trace are nondecreasing and bounded below. -/
def timesMono : Nat → List ThrottleOp → Bool
  | _, [] => true
  | t0, op :: rest => decide (t0 ≤ op.time) && timesMono op.time rest

/-- The trace contains no stop() call. -/
def noStopOp : List ThrottleOp → Bool
  | [] => true
  | ThrottleOp.stop _ :: _ => false
  | ThrottleOp.update _ _ :: rest => noStopOp rest

/-- Run invariant of the throttler at clock time clock: emissions are
spaced at least intervalMs apart, lastUpdate records the last emission
time, lastUpdate is in the past, and any scheduled timer fires exactly
intervalMs after the last emission. -/
def ThrottleInv (intervalMs clock : Nat) (st : ThrottleState) : Prop :=
  spaced intervalMs st.emissions = true ∧
  lastEmitTime st.emissions = st.lastUpdate ∧
  st.lastUpdate ≤ clock ∧
  ∀ ft, st.timer = some ft → ft = st.lastUpdate + intervalMs

/-- A pending text always has a timer scheduled to deliver it (holds
for stop-free traces). -/
def pendingSafe (st : ThrottleState) : Prop :=
  st.timer = none → st.pending = none

/-- The concrete update trace of the throttler example: updates at
relative times 0, 100, 300, 2500 over base clock 100000. -/
def c5trace : List ThrottleOp :=
  [ThrottleOp.update 100000 "v0", ThrottleOp.update 100100 "v1",
   ThrottleOp.update 100300 "v2", ThrottleOp.update 102500 "v3"]

theorem stepEvent_done (sessionId : String) (st : ExchangeState) (e : Event)
    (h : st.done = true) : stepEvent sessionId st e = st := by
  simp [stepEvent, h]

theorem foldl_stepEvent_done (sessionId : String) (st : ExchangeState)
    (h : st.done = true) :
    ∀ events : List Event, List.foldl (stepEvent sessionId) st events = st := by
  intro events
  induction events with
  | nil => rfl
  | cons e rest ih => simp [List.foldl, stepEvent_done sessionId st e h, ih]

theorem stepEvent_captured (sessionId : String) (st : ExchangeState) (e : Event)
    (h : st.answerCaptured = true) :
    (stepEvent sessionId st e).latestText = st.latestText ∧
    (stepEvent sessionId st e).progress = st.progress ∧
    (stepEvent sessionId st e).activeTools = st.activeTools ∧
    (stepEvent sessionId st e).answerCaptured = true := by
  by_cases hd : st.done = true
  · simp [stepEvent, hd, h]
  · simp only [Bool.not_eq_true] at hd
    cases e with
    | partUpdated sid part =>
      by_cases hs : sid = sessionId
      · cases part <;> simp [stepEvent, hd, hs, h]
      · simp [stepEvent, hd, hs, h]
    | sessionIdle sid =>
      by_cases hs : sid = sessionId <;> simp [stepEvent, hd, hs, h]
    | timerFired => simp [stepEvent, hd, h]
    | other => simp [stepEvent, hd, h]

theorem foldl_stepEvent_captured (sessionId : String) (st : ExchangeState)
    (h : st.answerCaptured = true) (events : List Event) :
    (List.foldl (stepEvent sessionId) st events).latestText = st.latestText ∧
    (List.foldl (stepEvent sessionId) st events).progress = st.progress ∧
    (List.foldl (stepEvent sessionId) st events).activeTools = st.activeTools ∧
    (List.foldl (stepEvent sessionId) st events).answerCaptured = true := by
  induction events generalizing st with
  | nil => exact ⟨rfl, rfl, rfl, h⟩
  | cons e rest ih =>
    have h1 := stepEvent_captured sessionId st e h
    have h2 := ih (stepEvent sessionId st e) h1.2.2.2
    exact ⟨h2.1.trans h1.1, h2.2.1.trans h1.2.1, h2.2.2.1.trans h1.2.2.1, h2.2.2.2⟩



/-- C1: once answerCaptured is true and the loop is still live, a
compaction part for the target session sets compacted and done and makes
the loop absorbing (termination); a compaction part carrying any other
session id leaves the state unchanged, so compacted stays false. -/
theorem askQuestion_compaction_after_answer (sessionId sid : String) (st : ExchangeState)
    (hcap : st.answerCaptured = true) (hdone : st.done = false) :
    (stepEvent sessionId st (Event.partUpdated sessionId PartType.compaction)).compacted = true ∧
    (stepEvent sessionId st (Event.partUpdated sessionId PartType.compaction)).done = true ∧
    (∀ rest : List Event,
      List.foldl (stepEvent sessionId)
        (stepEvent sessionId st (Event.partUpdated sessionId PartType.compaction)) rest =
        stepEvent sessionId st (Event.partUpdated sessionId PartType.compaction)) ∧
    (sid ≠ sessionId →
      stepEvent sessionId st (Event.partUpdated sid PartType.compaction) = st ∧
      (st.compacted = false →
        (stepEvent sessionId st (Event.partUpdated sid PartType.compaction)).compacted = false)) := by
  have hstep : stepEvent sessionId st (Event.partUpdated sessionId PartType.compaction) =
      { st with compacted := true, done := true } := by
    simp [stepEvent, hdone, hcap]
  refine ⟨by rw [hstep], by rw [hstep], ?_, ?_⟩
  · intro rest
    exact foldl_stepEvent_done sessionId _ (by rw [hstep]) rest
  · intro hne
    have : stepEvent sessionId st (Event.partUpdated sid PartType.compaction) = st := by
      simp [stepEvent, hdone, hne]
    exact ⟨this, fun hc => by rw [this]; exact hc⟩

theorem askQuestion_compaction_after_answer_witness :
    (stepEvent "s1" (ExchangeState.mk "ans" [] false true false [])
      (Event.partUpdated "s1" PartType.compaction)).compacted = true ∧
    (stepEvent "s1" (ExchangeState.mk "ans" [] false true false [])
      (Event.partUpdated "s1" PartType.compaction)).done = true ∧
    List.foldl (stepEvent "s1")
      (stepEvent "s1" (ExchangeState.mk "ans" [] false true false [])
        (Event.partUpdated "s1" PartType.compaction)) [Event.sessionIdle "s1"] =
      stepEvent "s1" (ExchangeState.mk "ans" [] false true false [])
        (Event.partUpdated "s1" PartType.compaction) ∧
    stepEvent "s1" (ExchangeState.mk "ans" [] false true false [])
      (Event.partUpdated "s2" PartType.compaction) = ExchangeState.mk "ans" [] false true false [] :=
  ⟨(askQuestion_compaction_after_answer "s1" "s2" (ExchangeState.mk "ans" [] false true false [])
      rfl rfl).1,
   (askQuestion_compaction_after_answer "s1" "s2" (ExchangeState.mk "ans" [] false true false [])
      rfl rfl).2.1,
   (askQuestion_compaction_after_answer "s1" "s2" (ExchangeState.mk "ans" [] false true false [])
      rfl rfl).2.2.1 [Event.sessionIdle "s1"],
   ((askQuestion_compaction_after_answer "s1" "s2" (ExchangeState.mk "ans" [] false true false [])
      rfl rfl).2.2.2 (by decide)).1⟩

/-- C2: once answerCaptured is true, any further event trace leaves
latestText, the progress-callback log and the activeTools map unchanged,
and every non-compaction part event for the target session leaves the
whole state unchanged. -/
theorem askQuestion_answer_frozen (sessionId : String) (st : ExchangeState)
    (hcap : st.answerCaptured = true) :
    (∀ events : List Event,
      (List.foldl (stepEvent sessionId) st events).latestText = st.latestText ∧
      (List.foldl (stepEvent sessionId) st events).progress = st.progress ∧
      (List.foldl (stepEvent sessionId) st events).activeTools = st.activeTools) ∧
    (∀ part : PartType, part ≠ PartType.compaction →
      stepEvent sessionId st (Event.partUpdated sessionId part) = st) := by
  constructor
  · intro events
    have h := foldl_stepEvent_captured sessionId st hcap events
    exact ⟨h.1, h.2.1, h.2.2.1⟩
  · intro part hne
    by_cases hd : st.done = true
    · exact stepEvent_done sessionId st _ hd
    · simp only [Bool.not_eq_true] at hd
      cases part <;> simp_all [stepEvent]

theorem askQuestion_answer_frozen_witness :
    (List.foldl (stepEvent "s1") (ExchangeState.mk "ans" [] false true false [])
      [Event.partUpdated "s1" (PartType.text "late")]).latestText = "ans" ∧
    stepEvent "s1" (ExchangeState.mk "ans" [] false true false [])
      (Event.partUpdated "s1" (PartType.text "late")) =
      ExchangeState.mk "ans" [] false true false [] :=
  ⟨((askQuestion_answer_frozen "s1" (ExchangeState.mk "ans" [] false true false []) rfl).1
      [Event.partUpdated "s1" (PartType.text "late")]).1,
   (askQuestion_answer_frozen "s1" (ExchangeState.mk "ans" [] false true false []) rfl).2
      (PartType.text "late") (by decide)⟩

/-- C3: at termination an empty latestText yields the fixed fallback
with isQuestion and compacted false; a non-empty latestText is returned
verbatim with isQuestion true exactly when the trimmed text ends in a
question mark; and the stream text("Which file?"), step-finish(stop),
idle yields isQuestion true. -/
theorem askQuestion_classification (st : ExchangeState) :
    (st.latestText = "" →
      askResult st = { text := fallbackText, isQuestion := false, compacted := false }) ∧
    (st.latestText ≠ "" →
      (askResult st).text = st.latestText ∧
      ((askResult st).isQuestion = true ↔ jsEndsWith (jsTrim st.latestText) "?" = true)) ∧
    askQuestion "s1" [Event.partUpdated "s1" (PartType.text "Which file?"),
      Event.partUpdated "s1" (PartType.stepFinish (some "stop")), Event.sessionIdle "s1"] =
      { text := "Which file?", isQuestion := true, compacted := false } := by
  refine ⟨fun h => by simp [askResult, h], fun h => ?_, by decide⟩
  simp [askResult, h]

theorem askQuestion_classification_witness :
    askResult (ExchangeState.mk "" [] true true true []) =
      { text := fallbackText, isQuestion := false, compacted := false } ∧
    (askResult (ExchangeState.mk "Hi?" [] true false false [])).text = "Hi?" ∧
    (askResult (ExchangeState.mk "Hi?" [] true false false [])).isQuestion = true :=
  ⟨(askQuestion_classification (ExchangeState.mk "" [] true true true [])).1 rfl,
   ((askQuestion_classification (ExchangeState.mk "Hi?" [] true false false [])).2.1
      (by decide)).1,
   ((askQuestion_classification (ExchangeState.mk "Hi?" [] true false false [])).2.1
      (by decide)).2.mpr (by decide)⟩



theorem findRow_insertOrReplace_self (s : SessionStore) (k : String) (r : SessionRow) :
    findRow (insertOrReplace s k r) k = some r := by
  induction s with
  | nil => simp [insertOrReplace, findRow]
  | cons kr rest ih =>
    obtain ⟨k1, r1⟩ := kr
    by_cases h : k1 = k
    · simp [insertOrReplace, findRow, h]
    · simp [insertOrReplace, findRow, h, ih]

theorem findRow_setSessionCompacted (s : SessionStore) (k : String) (c : Bool) :
    findRow (setSessionCompacted s k c) k =
      (findRow s k).map (fun r => { r with compacted := if c then 1 else 0 }) := by
  induction s with
  | nil => simp [setSessionCompacted, findRow]
  | cons kr rest ih =>
    obtain ⟨k1, r1⟩ := kr
    by_cases h : k1 = k
    · simp [setSessionCompacted, findRow, h]
    · simp [setSessionCompacted, findRow, h, ih]

theorem setSessionCompacted_absent (s : SessionStore) (k : String) (c : Bool)
    (h : findRow s k = none) : setSessionCompacted s k c = s := by
  induction s with
  | nil => rfl
  | cons kr rest ih =>
    obtain ⟨k1, r1⟩ := kr
    by_cases hk : k1 = k
    · simp [findRow, hk] at h
    · simp [findRow, hk] at h
      simp [setSessionCompacted, hk, ih h]

theorem setSessionCompacted_idem (s : SessionStore) (k : String) (c : Bool) :
    setSessionCompacted (setSessionCompacted s k c) k c = setSessionCompacted s k c := by
  induction s with
  | nil => rfl
  | cons kr rest ih =>
    obtain ⟨k1, r1⟩ := kr
    by_cases hk : k1 = k
    · simp [setSessionCompacted, hk, ih]
    · simp [setSessionCompacted, hk, ih]

/-- C7: a thread key with no stored row yields isNew true and the
minted id is persisted; a second call with the same key returns the
same stored id with isNew false and leaves the store unchanged. -/
theorem getOrCreateSession_new_once (s : SessionStore) (k m m2 : String) (n n2 : Nat)
    (h : getSessionId s k = none) :
    (getOrCreateSession s k m n).1 = (m, true) ∧
    getSessionId (getOrCreateSession s k m n).2 k = some m ∧
    getOrCreateSession (getOrCreateSession s k m n).2 k m2 n2 =
      ((m, false), (getOrCreateSession s k m n).2) := by
  have hsave : getSessionId (saveSession s k m n) k = some m := by
    simp [getSessionId, saveSession, findRow_insertOrReplace_self]
  refine ⟨by simp [getOrCreateSession, h], ?_, ?_⟩
  · simpa [getOrCreateSession, h] using hsave
  · simp [getOrCreateSession, h, hsave]

theorem getOrCreateSession_new_once_witness :
    (getOrCreateSession [] "t" "sid1" 1).1 = ("sid1", true) ∧
    getSessionId (getOrCreateSession [] "t" "sid1" 1).2 "t" = some "sid1" ∧
    getOrCreateSession (getOrCreateSession [] "t" "sid1" 1).2 "t" "sid2" 2 =
      (("sid1", false), (getOrCreateSession [] "t" "sid1" 1).2) :=
  getOrCreateSession_new_once [] "t" "sid1" "sid2" 1 2 (by decide)

/-- C8 as stated fails on a key with no stored row: setSessionCompacted
is an UPDATE, which touches nothing when the key is absent, so the
subsequent isSessionCompacted read returns false, not true. -/
theorem setCompacted_absent_key_refutes :
    ¬ (isSessionCompacted (setSessionCompacted [] "k" true) "k" = true) := by decide

/-- C8 amended: for a thread key with a stored session row,
setSessionCompacted true followed by isSessionCompacted yields true, a
subsequent setSessionCompacted false yields false, and setSessionCompacted
is idempotent. -/
theorem setCompacted_roundtrip (s : SessionStore) (k : String) (r : SessionRow)
    (h : findRow s k = some r) :
    isSessionCompacted (setSessionCompacted s k true) k = true ∧
    isSessionCompacted (setSessionCompacted (setSessionCompacted s k true) k false) k = false ∧
    (∀ c : Bool, setSessionCompacted (setSessionCompacted s k c) k c =
      setSessionCompacted s k c) := by
  refine ⟨?_, ?_, fun c => setSessionCompacted_idem s k c⟩
  · simp [isSessionCompacted, findRow_setSessionCompacted, h]
  · simp [isSessionCompacted, findRow_setSessionCompacted, h]

theorem setCompacted_roundtrip_witness :
    isSessionCompacted (setSessionCompacted [("k", SessionRow.mk "sid" 0 0)] "k" true) "k" = true ∧
    isSessionCompacted (setSessionCompacted
      (setSessionCompacted [("k", SessionRow.mk "sid" 0 0)] "k" true) "k" false) "k" = false ∧
    setSessionCompacted (setSessionCompacted [("k", SessionRow.mk "sid" 0 0)] "k" true) "k" true =
      setSessionCompacted [("k", SessionRow.mk "sid" 0 0)] "k" true :=
  ⟨(setCompacted_roundtrip [("k", SessionRow.mk "sid" 0 0)] "k" (SessionRow.mk "sid" 0 0)
      (by decide)).1,
   (setCompacted_roundtrip [("k", SessionRow.mk "sid" 0 0)] "k" (SessionRow.mk "sid" 0 0)
      (by decide)).2.1,
   (setCompacted_roundtrip [("k", SessionRow.mk "sid" 0 0)] "k" (SessionRow.mk "sid" 0 0)
      (by decide)).2.2 true⟩

/-- C10: for a thread key with no stored row, setSessionCompacted is a
silent no-op leaving the store unchanged, isSessionCompacted returns
false, and a setSessionCompacted true followed by isSessionCompacted
still yields false. -/
theorem setCompacted_absent_noop (s : SessionStore) (k : String) (c : Bool)
    (h : findRow s k = none) :
    setSessionCompacted s k c = s ∧
    isSessionCompacted s k = false ∧
    isSessionCompacted (setSessionCompacted s k true) k = false := by
  refine ⟨setSessionCompacted_absent s k c h, ?_, ?_⟩
  · simp [isSessionCompacted, h]
  · rw [setSessionCompacted_absent s k true h]
    simp [isSessionCompacted, h]

theorem setCompacted_absent_noop_witness :
    setSessionCompacted [("a", SessionRow.mk "s" 0 0)] "k" true = [("a", SessionRow.mk "s" 0 0)] ∧
    isSessionCompacted [("a", SessionRow.mk "s" 0 0)] "k" = false ∧
    isSessionCompacted (setSessionCompacted [("a", SessionRow.mk "s" 0 0)] "k" true) "k" = false :=
  setCompacted_absent_noop [("a", SessionRow.mk "s" 0 0)] "k" true (by decide)



/-- C4: the shared pipeline runs the exchange with full context exactly
when the session is new or the stored compacted flag is set; a
continuing session with the flag set has it cleared before the exchange
starts; and a result reporting compacted sets the stored flag. -/
theorem handleQuestion_full_context (s : SessionStore) (threadTs mintedId : String)
    (now : Nat) (events : List Event) :
    (handleQuestion s threadTs mintedId now events).needsFullContext =
      ((handleQuestion s threadTs mintedId now events).isNew ||
        isSessionCompacted s threadTs) ∧
    ((handleQuestion s threadTs mintedId now events).isNew = false →
      isSessionCompacted s threadTs = true →
      isSessionCompacted (handleQuestion s threadTs mintedId now events).storeMid threadTs
        = false) ∧
    ((handleQuestion s threadTs mintedId now events).result.compacted = true →
      isSessionCompacted (handleQuestion s threadTs mintedId now events).store threadTs
        = true) := by
  cases hfind : findRow s threadTs with
  | none =>
    have hg : getOrCreateSession s threadTs mintedId now =
        ((mintedId, true), saveSession s threadTs mintedId now) := by
      simp [getOrCreateSession, getSessionId, hfind]
    have hC : isSessionCompacted s threadTs = false := by
      simp [isSessionCompacted, hfind]
    have hs1 : findRow (saveSession s threadTs mintedId now) threadTs =
        some { session_id := mintedId, compacted := 0, created_at := now } :=
      findRow_insertOrReplace_self s threadTs _
    refine ⟨?_, ?_, ?_⟩
    · simp [handleQuestion, hg, hC]
    · intro hnew
      simp [handleQuestion, hg] at hnew
    · intro hcomp
      simp only [handleQuestion, hg] at hcomp ⊢
      simp only [Bool.not_true, Bool.false_and, if_false, hcomp, if_true]
      simp [isSessionCompacted, findRow_setSessionCompacted, hs1]
  | some r =>
    have hg : getOrCreateSession s threadTs mintedId now = ((r.session_id, false), s) := by
      simp [getOrCreateSession, getSessionId, hfind]
    refine ⟨?_, ?_, ?_⟩
    · simp [handleQuestion, hg]
    · intro _ hC
      simp only [handleQuestion, hg] at *
      simp only [Bool.not_false, Bool.true_and, Bool.false_or, hC, if_true]
      simp [isSessionCompacted, findRow_setSessionCompacted, hfind]
    · intro hcomp
      simp only [handleQuestion, hg] at hcomp ⊢
      simp only [hcomp, if_true]
      by_cases hC : isSessionCompacted s threadTs = true
      · simp only [Bool.not_false, Bool.true_and, Bool.false_or, hC, if_true]
        simp [isSessionCompacted, findRow_setSessionCompacted, hfind]
      · simp only [Bool.not_eq_true] at hC
        simp only [Bool.not_false, Bool.true_and, Bool.false_or, hC, if_false]
        simp [isSessionCompacted, findRow_setSessionCompacted, hfind]



theorem handleQuestion_full_context_witness :
    (handleQuestion [("t1", SessionRow.mk "sidA" 1 5)] "t1" "m" 9
      [Event.partUpdated "sidA" (PartType.text "A"),
       Event.partUpdated "sidA" (PartType.stepFinish (some "stop")),
       Event.partUpdated "sidA" PartType.compaction]).needsFullContext =
      ((handleQuestion [("t1", SessionRow.mk "sidA" 1 5)] "t1" "m" 9
        [Event.partUpdated "sidA" (PartType.text "A"),
         Event.partUpdated "sidA" (PartType.stepFinish (some "stop")),
         Event.partUpdated "sidA" PartType.compaction]).isNew ||
        isSessionCompacted [("t1", SessionRow.mk "sidA" 1 5)] "t1") ∧
    isSessionCompacted (handleQuestion [("t1", SessionRow.mk "sidA" 1 5)] "t1" "m" 9
      [Event.partUpdated "sidA" (PartType.text "A"),
       Event.partUpdated "sidA" (PartType.stepFinish (some "stop")),
       Event.partUpdated "sidA" PartType.compaction]).storeMid "t1" = false ∧
    isSessionCompacted (handleQuestion [("t1", SessionRow.mk "sidA" 1 5)] "t1" "m" 9
      [Event.partUpdated "sidA" (PartType.text "A"),
       Event.partUpdated "sidA" (PartType.stepFinish (some "stop")),
       Event.partUpdated "sidA" PartType.compaction]).store "t1" = true :=
  ⟨(handleQuestion_full_context [("t1", SessionRow.mk "sidA" 1 5)] "t1" "m" 9
      [Event.partUpdated "sidA" (PartType.text "A"),
       Event.partUpdated "sidA" (PartType.stepFinish (some "stop")),
       Event.partUpdated "sidA" PartType.compaction]).1,
   (handleQuestion_full_context [("t1", SessionRow.mk "sidA" 1 5)] "t1" "m" 9
      [Event.partUpdated "sidA" (PartType.text "A"),
       Event.partUpdated "sidA" (PartType.stepFinish (some "stop")),
       Event.partUpdated "sidA" PartType.compaction]).2.1 (by decide) (by decide),
   (handleQuestion_full_context [("t1", SessionRow.mk "sidA" 1 5)] "t1" "m" 9
      [Event.partUpdated "sidA" (PartType.text "A"),
       Event.partUpdated "sidA" (PartType.stepFinish (some "stop")),
       Event.partUpdated "sidA" PartType.compaction]).2.2 (by decide)⟩

/-- C9: when the exchange terminates with empty latestText, askQuestion
reports compacted false regardless of the internal compaction flag, so
handleQuestion leaves the stored flag untouched; the concrete trace
step-finish(stop) then compaction has the internal flag true and still
returns compacted false with the fallback text. -/
theorem handleQuestion_empty_answer (s : SessionStore) (threadTs mintedId : String)
    (now : Nat) (events : List Event) :
    ((runExchange (handleQuestion s threadTs mintedId now events).sessionId events).latestText
        = "" →
      (handleQuestion s threadTs mintedId now events).result.compacted = false ∧
      (handleQuestion s threadTs mintedId now events).store =
        (handleQuestion s threadTs mintedId now events).storeMid) ∧
    ((runExchange "s1" [Event.partUpdated "s1" (PartType.stepFinish (some "stop")),
        Event.partUpdated "s1" PartType.compaction]).compacted = true ∧
      askQuestion "s1" [Event.partUpdated "s1" (PartType.stepFinish (some "stop")),
        Event.partUpdated "s1" PartType.compaction] =
        { text := fallbackText, isQuestion := false, compacted := false }) := by
  refine ⟨fun hempty => ?_, by decide, by decide⟩
  have hres : (handleQuestion s threadTs mintedId now events).result.compacted = false := by
    simp only [handleQuestion] at hempty ⊢
    simp [askQuestion, askResult, hempty]
  refine ⟨hres, ?_⟩
  simp only [handleQuestion] at hres ⊢
  simp [hres]

theorem handleQuestion_empty_answer_witness :
    (handleQuestion [] "t" "m" 0 []).result.compacted = false ∧
    (handleQuestion [] "t" "m" 0 []).store = (handleQuestion [] "t" "m" 0 []).storeMid :=
  (handleQuestion_empty_answer [] "t" "m" 0 []).1 (by decide)



/-- C5 refutation: on the trace given in the spec the code does not produce 2
notifications with the second at t=2500; it produces 3, with the second
at t=2000 (when the timer scheduled at t=100 fires). -/
theorem throttle_example_refutes :
    (finalize (runOps 2000 c5trace)).emissions ≠ [(100000, "v0"), (102500, "v2")] ∧
    ((finalize (runOps 2000 c5trace)).emissions).length = 3 := by decide

/-- C5 amended: during the calls the throttler emits at t=0 (t=0 value)
and at t=2000 (the t=300 value, not an intermediate one); the t=2500
update schedules a third notification at t=4000 carrying its value. -/
theorem throttle_example_three :
    (runOps 2000 c5trace).emissions = [(100000, "v0"), (102000, "v2")] ∧
    (finalize (runOps 2000 c5trace)).emissions =
      [(100000, "v0"), (102000, "v2"), (104000, "v3")] := by decide

/-- C6 refutation: a stop() while a delivery timer is scheduled drops
the pending update: only the first update is ever emitted and the
pending text "b" is never delivered. -/
theorem throttle_stop_drops_pending :
    (finalize (runOps 2000 [ThrottleOp.update 100000 "a", ThrottleOp.update 100100 "b",
      ThrottleOp.stop 100200])).emissions = [(100000, "a")] ∧
    (finalize (runOps 2000 [ThrottleOp.update 100000 "a", ThrottleOp.update 100100 "b",
      ThrottleOp.stop 100200])).pending = some "b" := by decide

theorem lastEmitTime_append (es : List (Nat × String)) (e : Nat × String) :
    lastEmitTime (es ++ [e]) = e.1 := by
  induction es with
  | nil => rfl
  | cons a rest ih =>
    cases rest with
    | nil => rfl
    | cons b rest2 => simpa [lastEmitTime] using ih

theorem spaced_append (i t : Nat) (x : String) :
    ∀ es : List (Nat × String), spaced i es = true → lastEmitTime es + i ≤ t →
      spaced i (es ++ [(t, x)]) = true := by
  intro es
  induction es with
  | nil => intro _ _; simp [spaced]
  | cons a rest ih =>
    intro hs hl
    cases rest with
    | nil =>
      simp [lastEmitTime] at hl
      simp [spaced]
      omega
    | cons b rest2 =>
      simp only [spaced, Bool.and_eq_true, decide_eq_true_eq] at hs
      have hl2 : lastEmitTime (b :: rest2) + i ≤ t := by
        simpa [lastEmitTime] using hl
      have h2 := ih hs.2 hl2
      simp only [List.cons_append] at h2 ⊢
      simp [spaced, hs.1, h2]

theorem throttleInv_mono (i T T2 : Nat) (st : ThrottleState)
    (h : ThrottleInv i T st) (hle : T ≤ T2) : ThrottleInv i T2 st :=
  ⟨h.1, h.2.1, le_trans h.2.2.1 hle, h.2.2.2⟩

theorem flush_inv (i T n : Nat) (st : ThrottleState) (hinv : ThrottleInv i T st)
    (htnone : st.timer = none) (hn : st.lastUpdate + i ≤ n) :
    ThrottleInv i n (flush n st) := by
  obtain ⟨hsp, hle, hlu, htm⟩ := hinv
  cases hp : st.pending with
  | none =>
    refine ⟨?_, ?_, ?_, ?_⟩ <;> simp [flush, hp, hsp, hle, htnone]
    omega
  | some p =>
    refine ⟨?_, ?_, ?_, ?_⟩ <;> simp [flush, hp, htnone]
    · exact spaced_append i n p st.emissions hsp (by omega)
    · exact lastEmitTime_append st.emissions (n, p)

theorem timerFire_inv (i T : Nat) (st : ThrottleState) (hinv : ThrottleInv i T st) :
    ∀ ft, st.timer = some ft → ThrottleInv i ft (timerFire st) := by
  intro ft htm
  obtain ⟨hsp, hle, hlu, htimer⟩ := hinv
  have hft : ft = st.lastUpdate + i := htimer ft htm
  have h1 : ThrottleInv i T { st with timer := none } := ⟨hsp, hle, hlu, by simp⟩
  have h2 := flush_inv i T ft { st with timer := none } h1 rfl (by simp; omega)
  simpa [timerFire, htm] using h2



theorem timerFire_timer_none (st : ThrottleState) (ft : Nat) (h : st.timer = some ft) :
    (timerFire st).timer = none := by
  cases hp : st.pending <;> simp [timerFire, h, flush, hp]

theorem update_inv (i t : Nat) (text : String) (st : ThrottleState)
    (hinv : ThrottleInv i t st)
    (hside : ∀ ft, st.timer = some ft → t < ft) :
    ThrottleInv i t (update i t text st) := by
  obtain ⟨hsp, hle, hlu, htm⟩ := hinv
  by_cases hel : i ≤ t - st.lastUpdate
  · have htnone : st.timer = none := by
      cases htm2 : st.timer with
      | none => rfl
      | some ft =>
        have h1 := hside ft htm2
        have h2 := htm ft htm2
        omega
    have hinv2 : ThrottleInv i t { st with pending := some text } :=
      ⟨hsp, hle, hlu, fun ft h => htm ft (by simpa using h)⟩
    have h3 := flush_inv i t t { st with pending := some text } hinv2
      (by simpa using htnone) (by simp; omega)
    simpa [update, hel] using h3
  · cases htm2 : st.timer with
    | some ft =>
      have heq : update i t text st = { st with pending := some text } := by
        simp [update, hel, htm2]
      rw [heq]
      exact ⟨hsp, hle, hlu, fun ft2 h => htm ft2 (by simpa using h)⟩
    | none =>
      have heq : update i t text st =
          { st with pending := some text,
                    timer := some (t + (i - (t - st.lastUpdate))) } := by
        simp [update, hel, htm2]
      rw [heq]
      refine ⟨hsp, hle, hlu, ?_⟩
      intro ft2 h
      simp at h ⊢
      omega

theorem stop_inv (i T : Nat) (st : ThrottleState) (hinv : ThrottleInv i T st) :
    ThrottleInv i T (stop st) := by
  obtain ⟨a, b, c, _⟩ := hinv
  exact ⟨a, b, c, by simp [stop]⟩

theorem fireDue_inv (i T tm : Nat) (st : ThrottleState)
    (hinv : ThrottleInv i T st) (hT : T ≤ tm) :
    ThrottleInv i tm (fireDue tm st) ∧
    (∀ ft, (fireDue tm st).timer = some ft → tm < ft) := by
  have hinv2 : ThrottleInv i tm st := throttleInv_mono i T tm st hinv hT
  cases htm : st.timer with
  | none =>
    refine ⟨by simpa [fireDue, htm] using hinv2, ?_⟩
    intro ft h
    simp [fireDue, htm] at h
  | some ft =>
    by_cases hdue : ft ≤ tm
    · have heq : fireDue tm st = timerFire st := by simp [fireDue, htm, hdue]
      rw [heq]
      refine ⟨throttleInv_mono i ft tm _ (timerFire_inv i tm st hinv2 ft htm) hdue, ?_⟩
      intro ft2 h
      rw [timerFire_timer_none st ft htm] at h
      cases h
    · have heq : fireDue tm st = st := by simp [fireDue, htm, hdue]
      rw [heq]
      refine ⟨hinv2, ?_⟩
      intro ft2 h
      rw [htm] at h
      cases h
      omega

theorem applyOp_inv (i : Nat) (st : ThrottleState) (op : ThrottleOp) (T : Nat)
    (hinv : ThrottleInv i T st) (hT : T ≤ op.time) :
    ThrottleInv i op.time (applyOp i st op) := by
  cases op with
  | update t text =>
    have h := fireDue_inv i T t st hinv (by simpa [ThrottleOp.time] using hT)
    simpa [applyOp, ThrottleOp.time] using update_inv i t text (fireDue t st) h.1 h.2
  | stop t =>
    have h := fireDue_inv i T t st hinv (by simpa [ThrottleOp.time] using hT)
    simpa [applyOp, ThrottleOp.time] using stop_inv i t (fireDue t st) h.1



theorem runOps_inv_aux (i : Nat) :
    ∀ (ops : List ThrottleOp) (T : Nat) (st : ThrottleState),
      timesMono T ops = true → ThrottleInv i T st →
      ∃ T2, ThrottleInv i T2 (List.foldl (applyOp i) st ops) := by
  intro ops
  induction ops with
  | nil => exact fun T st _ h => ⟨T, h⟩
  | cons op rest ih =>
    intro T st hm hinv
    simp only [timesMono, Bool.and_eq_true, decide_eq_true_eq] at hm
    exact ih op.time (applyOp i st op) hm.2 (applyOp_inv i st op T hinv hm.1)

theorem finalize_spaced_of_inv (i T : Nat) (st : ThrottleState)
    (hinv : ThrottleInv i T st) : spaced i (finalize st).emissions = true := by
  cases htm : st.timer with
  | none => simpa [finalize, timerFire, htm] using hinv.1
  | some ft => exact (timerFire_inv i T st hinv ft htm).1

theorem initThrottle_inv (i : Nat) : ThrottleInv i 0 initThrottle :=
  ⟨rfl, rfl, le_rfl, fun ft h => by simp [initThrottle] at h⟩

theorem update_pendingSafe (i t : Nat) (text : String) (st : ThrottleState) :
    pendingSafe (update i t text st) := by
  by_cases hel : i ≤ t - st.lastUpdate
  · intro h
    simp [update, hel, flush] at h ⊢
  · cases htm : st.timer with
    | some ft =>
      intro h
      simp [update, hel, htm] at h
    | none =>
      intro h
      simp [update, hel, htm] at h

theorem fireDue_pendingSafe (tm : Nat) (st : ThrottleState) (h : pendingSafe st) :
    pendingSafe (fireDue tm st) := by
  cases htm : st.timer with
  | none => simpa [fireDue, htm] using h
  | some ft =>
    by_cases hdue : ft ≤ tm
    · intro _
      cases hp : st.pending <;> simp [fireDue, htm, hdue, timerFire, flush, hp]
    · simpa [fireDue, htm, hdue] using h

theorem runOps_pendingSafe (i : Nat) :
    ∀ (ops : List ThrottleOp) (st : ThrottleState),
      noStopOp ops = true → pendingSafe st →
      pendingSafe (List.foldl (applyOp i) st ops) := by
  intro ops
  induction ops with
  | nil => exact fun st _ h => h
  | cons op rest ih =>
    intro st hns hsafe
    cases op with
    | stop t => simp [noStopOp] at hns
    | update t text =>
      simp only [noStopOp] at hns
      exact ih (applyOp i st (ThrottleOp.update t text)) hns
        (by simpa [applyOp] using update_pendingSafe i t text (fireDue t st))

theorem finalize_pending_none (st : ThrottleState) (h : pendingSafe st) :
    (finalize st).pending = none := by
  cases htm : st.timer with
  | none => simpa [finalize, timerFire, htm] using h htm
  | some ft => cases hp : st.pending <;> simp [finalize, timerFire, htm, flush, hp]

/-- C6 amended: over any time-monotone call trace, outward
notifications are spaced at least intervalMs apart, and on a trace
without stop() every pending update is eventually delivered (no pending
text remains once the scheduled timer has run); stop(), however,
cancels the scheduled delivery and discards the pending text. -/
theorem throttle_rate_and_delivery (i : Nat) (ops : List ThrottleOp)
    (hm : timesMono 0 ops = true) :
    spaced i (finalize (runOps i ops)).emissions = true ∧
    (noStopOp ops = true → (finalize (runOps i ops)).pending = none) := by
  constructor
  · obtain ⟨T2, hinv⟩ := runOps_inv_aux i ops 0 initThrottle hm (initThrottle_inv i)
    exact finalize_spaced_of_inv i T2 _ hinv
  · intro hns
    exact finalize_pending_none _
      (runOps_pendingSafe i ops initThrottle hns (fun _ => rfl))

theorem throttle_rate_and_delivery_witness :
    spaced 2000 (finalize (runOps 2000
      [ThrottleOp.update 100000 "a", ThrottleOp.update 100100 "b"])).emissions = true ∧
    (finalize (runOps 2000
      [ThrottleOp.update 100000 "a", ThrottleOp.update 100100 "b"])).pending = none :=
  ⟨(throttle_rate_and_delivery 2000
      [ThrottleOp.update 100000 "a", ThrottleOp.update 100100 "b"] (by decide)).1,
   (throttle_rate_and_delivery 2000
      [ThrottleOp.update 100000 "a", ThrottleOp.update 100100 "b"] (by decide)).2 (by decide)⟩

end Slackode
